import Mathlib

/-!
Shallow embedding of the `static-box` crate (`src/lib.rs`): a `Box` that stores a
trait object — its dynamic-dispatch metadata (`core::ptr::DynMetadata`) followed by
the value's bytes — inside a caller-provided byte buffer, with no heap allocation.

Modelling conventions:
* `usize` arithmetic is `Nat`; the target is 64-bit, so a pointer (and hence
  `DynMetadata<T>`, which is a single vtable pointer) has size 8 and alignment 8,
  and `isize::MAX = 2^63 - 1`.
* A Rust type implementing the target trait `T` is modelled as a `RustType`:
  its `core::alloc::Layout` plus an identifier of its `dyn T` vtable.  A concrete
  value of that type is a `RustType` together with a `payload : Nat` naming the
  value; its bytes in memory are the abstract cells `Cell.valByte ty payload i`.
* The backing buffer is a `Mem`: a length plus a map from byte index to `Cell`.
  Raw-pointer writes become `Mem.write`; reading `DynMetadata` back from raw bytes
  becomes `readMeta`, which yields `none` when the bytes do not hold a previously
  written metadata record (the unspecified-garbage case).
* Panics (`assert!`, the capacity `panic!`, and the `unwrap` inside
  `meta_offset_layout`) become the `Except.error` branch, which carries the
  `PanicKind` and the buffer as it stands when the panic fires — so "no byte was
  written before the abort" is the statement that the error carries the input
  buffer unchanged.
* `Layout::extend`, `Layout::padding_needed_for` and `Layout::from_size_align`
  are `core` functions (not part of this repository); they are embedded from
  their documented semantics: `padding_needed_for` returns the least padding
  making the size a multiple of the (power-of-two) alignment, `from_size_align`
  checks the power-of-two and `isize::MAX` conditions, and `extend` combines the
  two layouts at the stricter alignment WITHOUT rounding the final size up to
  the combined alignment (that is `pad_to_align`, which the crate never calls).
-/

namespace StaticBox

/-- Rust `isize::MAX` on the 64-bit target. -/
def isizeMax : Nat := 2 ^ 63 - 1

/-- Rust `usize::is_power_of_two`: exactly one bit set, i.e. `n != 0 && n & (n-1) == 0`. -/
def isPow2 (n : Nat) : Bool := n != 0 && (n &&& (n - 1)) == 0

/-- Embeds `core::alloc::Layout`: a size and a (power-of-two) alignment in bytes. -/
structure Layout where
  size : Nat
  align : Nat
deriving DecidableEq, Repr

/-- Embeds `Layout::from_size_align`: requires `align` to be a power of two and
`size <= isize::MAX - (align - 1)`. -/
def Layout.from_size_align (size align : Nat) : Option Layout :=
  if isPow2 align = true ∧ size ≤ isizeMax - (align - 1) then some ⟨size, align⟩ else none

/-- Embeds `Layout::padding_needed_for`: the least padding `p` such that `size + p` is a
multiple of `align` (for the power-of-two alignments `Layout` guarantees). -/
def Layout.padding_needed_for (l : Layout) (align : Nat) : Nat :=
  (l.size + align - 1) / align * align - l.size

/-- Embeds `Layout::extend`: place a field of layout `next` after `self`, at the stricter
of the two alignments; returns the combined layout and the field's offset.  The
resulting size is `offset + next.size`, NOT rounded up to the combined alignment. -/
def Layout.extend (l next : Layout) : Option (Layout × Nat) :=
  let new_align := max l.align next.align
  let pad := l.padding_needed_for next.align
  let offset := l.size + pad
  let new_size := offset + next.size
  (Layout.from_size_align new_size new_align).map fun lay => (lay, offset)

/-- Embeds `core::ptr::DynMetadata<T>`: identifies the `dyn T` vtable of the concrete
type, and through it knows the concrete type's layout (`DynMetadata::layout`). -/
structure DynMetadata where
  vtableId : Nat
  valueLayout : Layout
deriving DecidableEq, Repr

/-- Layout `Layout::for_value(&meta)` for `meta : DynMetadata<T>`: a single vtable
pointer on the 64-bit target, so size 8, alignment 8. -/
def dynMetadataLayout : Layout := ⟨8, 8⟩

/-- A `Sized` Rust type that implements the target trait `T`: its layout
(`Layout::for_value`) and the identity of its `dyn T` vtable. -/
structure RustType where
  layout : Layout
  vtableId : Nat
deriving DecidableEq, Repr

/-- Embeds `ptr::metadata(value as &T)`: the dynamic metadata of `value` viewed through
the trait; it records the vtable and the concrete type's layout. -/
def mdOf (ty : RustType) : DynMetadata := ⟨ty.vtableId, ty.layout⟩

/-- One byte of the backing buffer: either an untouched original byte, the `i`-th
byte of a written `DynMetadata`, or the `i`-th byte of a written value. -/
inductive Cell where
  | init (b : Nat)
  | metaByte (md : DynMetadata) (i : Nat)
  | valByte (ty : RustType) (payload : Nat) (i : Nat)
deriving DecidableEq, Repr

/-- The backing buffer `mem : &mut [u8]`: its length and its bytes. -/
structure Mem where
  len : Nat
  cells : Nat → Cell

/-- A raw write of `n` bytes `f 0, …, f (n-1)` starting at index `pos`. -/
def Mem.write (m : Mem) (pos : Nat) (f : Nat → Cell) (n : Nat) : Mem :=
  ⟨m.len, fun i => if pos ≤ i ∧ i < pos + n then f (i - pos) else m.cells i⟩

/-- The bytes `m[pos], …, m[pos+n-1]`. -/
def Mem.bytesAt (m : Mem) (pos n : Nat) : List Cell :=
  (List.range n).map fun i => m.cells (pos + i)

/-- The bytes a value occupies once moved into the buffer. -/
def valueBytes (ty : RustType) (payload : Nat) : List Cell :=
  (List.range ty.layout.size).map (Cell.valByte ty payload)

/-- Embeds `meta_offset_layout` (src/lib.rs:114-127): metadata of the value viewed
through the trait, plus `Layout::for_value(&meta).extend(Layout::for_value(value))`.
The `.unwrap()` on `extend` is the `none` case here. -/
def meta_offset_layout (ty : RustType) : Option (DynMetadata × Layout × Nat) :=
  (dynMetadataLayout.extend ty.layout).map fun p => (mdOf ty, p.1, p.2)

/-- Embeds `<*mut u8>::align_offset`: the least `n` with `(addr + n) % align = 0`
(for a byte pointer this is always attainable). -/
def ptr_align_offset (addr align : Nat) : Nat := (align - addr % align) % align

/-- The panics `Box::new` can raise: the `unwrap` inside `meta_offset_layout`,
the `assert!(layout.size() > 0, "Unsupported value layot")`, and the
insufficient-capacity `panic!` with its two reported byte counts. -/
inductive PanicKind where
  | layoutError
  | unsupportedLayout
  | notEnoughMemory (got needed : Nat)
deriving DecidableEq, Repr

/-- The panic message accompanying each `PanicKind` in the source. -/
def panicMessage : PanicKind → String
  | .layoutError => "LayoutError"
  | .unsupportedLayout => "Unsupported value layot"
  | .notEnoughMemory got needed =>
      "Not enough memory to store the specified value (got: " ++ toString got ++
        ", needed: " ++ toString needed ++ ")"

/-- Embeds `static_box::Box` (src/lib.rs:129-137): the alignment offset and the buffer.
The `PhantomData<T>` interface tag carries no bytes. -/
structure Box where
  align_offset : Nat
  mem : Mem

/-- Embeds `Box::new` (src/lib.rs:149-195).  `addr` is the buffer's start address
(`mem.as_mut_ptr()`).  Mirrors the source order: compute the layout, assert the
combined size is positive, compute the alignment offset, check capacity (erroring
with the buffer untouched — the source calls `core::mem::forget(new_box)` and
panics before any write), then write the metadata followed by the value. -/
def Box.new (addr : Nat) (mem : Mem) (ty : RustType) (payload : Nat) :
    Except (PanicKind × Mem) Box :=
  match meta_offset_layout ty with
  | none => .error (.layoutError, mem)
  | some (meta, layout, offset) =>
    if layout.size = 0 then .error (.unsupportedLayout, mem)
    else
      let align_offset := ptr_align_offset addr layout.align
      let total_len := align_offset + layout.size
      let buf_len := mem.len
      if total_len > buf_len then
        .error (.notEnoughMemory buf_len total_len, mem)
      else
        let mem1 := mem.write align_offset (fun i => Cell.metaByte meta i) dynMetadataLayout.size
        let mem2 := mem1.write (align_offset + offset)
          (fun i => Cell.valByte ty payload i) ty.layout.size
        .ok ⟨align_offset, mem2⟩

/-- Embeds `Box::layout_of_dyn` (src/lib.rs:199-205): the combined layout alone. -/
def layout_of_dyn (ty : RustType) : Option Layout :=
  (meta_offset_layout ty).map fun p => p.2.1

/-- Reading a `DynMetadata<T>` back from raw buffer bytes (the unsafe read in
`Box::meta`, src/lib.rs:207-210): succeeds exactly when the
`dynMetadataLayout.size` bytes at `pos` are a previously written metadata record. -/
def readMeta (m : Mem) (pos : Nat) : Option DynMetadata :=
  match m.cells pos with
  | Cell.metaByte md 0 =>
      if ∀ i < dynMetadataLayout.size, m.cells (pos + i) = Cell.metaByte md i
      then some md else none
  | _ => none

/-- Embeds `Box::meta`: read the metadata at `mem[align_offset ..]`. -/
def Box.meta (b : Box) : Option DynMetadata := readMeta b.mem b.align_offset

/-- Embeds `Box::layout_meta` (src/lib.rs:212-217): re-derive
`Layout::for_value(&meta).extend(meta.layout())` from the stored metadata. -/
def Box.layout_meta (b : Box) : Option (Layout × Nat × DynMetadata) :=
  b.meta.bind fun md =>
    (dynMetadataLayout.extend md.valueLayout).map fun p => (p.1, p.2, md)

/-- Embeds `Box::value_ptr` (src/lib.rs:219-232): the byte index of the stored value
together with the metadata — the two components of the fat pointer
`ptr::from_raw_parts`. -/
def Box.value_ptr (b : Box) : Option (Nat × DynMetadata) :=
  b.layout_meta.map fun t => (b.align_offset + t.2.1, t.2.2)

/-- Embeds `AsRef::as_ref` (src/lib.rs:250-258): the reconstructed `&dyn T`.  Its
observable behaviour under the trait's operations is determined by the vtable
(the metadata) together with the value bytes it points at, which is what the
embedding returns. -/
def Box.as_ref (b : Box) : Option (DynMetadata × List Cell) :=
  b.value_ptr.map fun p => (p.2, b.mem.bytesAt p.1 p.2.valueLayout.size)

/-- Embeds `AsMut::as_mut` (src/lib.rs:260-268), built on `value_mut_ptr`: the same
reconstruction as `as_ref`. -/
def Box.as_mut (b : Box) : Option (DynMetadata × List Cell) :=
  b.value_ptr.map fun p => (p.2, b.mem.bytesAt p.1 p.2.valueLayout.size)

/-- Embeds `Deref::deref` (src/lib.rs:270-280): defined as `self.as_ref()`. -/
def Box.deref (b : Box) : Option (DynMetadata × List Cell) := b.as_ref

/-- A destructor invocation performed through a container's stored descriptor:
the metadata whose vtable supplies the drop function, and the value bytes it is
invoked on. -/
abbrev DropEvent := DynMetadata × List Cell

/-- Embeds `Drop for Box` (src/lib.rs:292-302): `ptr::drop_in_place::<T>(&mut **self)` —
one destructor invocation through the stored metadata on the stored value bytes. -/
def Box.drop_events (b : Box) : List DropEvent :=
  match b.as_mut with
  | some ev => [ev]
  | none => []

/-- Destructor invocations performed through a container during `Box::new`
itself.  On the success path the box is returned to the caller, so its `Drop`
does not run inside `new`.  On the capacity-failure path the source calls
`core::mem::forget(new_box)` (src/lib.rs:175) before panicking, which removes
`new_box` from the unwind-time drop obligations, so its `Drop` (which would
read whatever bytes the untouched buffer holds) never runs: the event list is
empty on every path.  Compare `Box.new_unwind_events_no_forget`. -/
def Box.new_unwind_events (addr : Nat) (mem : Mem) (ty : RustType) : List DropEvent :=
  match meta_offset_layout ty with
  | none => []
  | some (_, layout, _) =>
    if layout.size = 0 then []
    else
      let align_offset := ptr_align_offset addr layout.align
      if align_offset + layout.size > mem.len then [] else []

/-- What unwinding out of the capacity panic would drop had the source NOT
called `core::mem::forget(new_box)`: the `Drop` of the inconsistent box would
run `drop_in_place` through whatever bytes the untouched buffer happens to hold. -/
def Box.new_unwind_events_no_forget (addr : Nat) (mem : Mem) (ty : RustType) : List DropEvent :=
  match meta_offset_layout ty with
  | none => []
  | some (_, layout, _) =>
    if layout.size = 0 then []
    else
      let align_offset := ptr_align_offset addr layout.align
      if align_offset + layout.size > mem.len
      then Box.drop_events ⟨align_offset, mem⟩ else []

/-- Modelled from the spec: the crate version under `src/` has no fixed-size
convenience constructor (`construct_fixed<N>` exists only in the spec, §4.5 and
§6).  Per the spec it owns an inline byte array of compile-time length `n`,
zero-initialized before first write. -/
def zero_buf (n : Nat) : Mem := ⟨n, fun _ => Cell.init 0⟩

/-- Modelled from the spec: `construct_fixed<N>(value, interface)` — construction
into the container-owned, zero-initialized inline buffer of length `n`,
delegating entirely to the ordinary construction (spec §4.5: "strictly a
specialization of step 1-6 with an owned buffer"). -/
def construct_fixed (n : Nat) (addr : Nat) (ty : RustType) (payload : Nat) :
    Except (PanicKind × Mem) Box :=
  Box.new addr (zero_buf n) ty payload

/-! ### Arithmetic helper lemmas -/

theorem isPow2_pos {n : Nat} (h : isPow2 n = true) : 0 < n := by
  have hne : (n != 0) = true := by
    unfold isPow2 at h
    exact (Bool.and_eq_true_iff.mp h).1
  exact Nat.pos_of_ne_zero (by simpa [bne_iff_ne] using hne)

theorem roundup_lower (s a : Nat) (ha : 0 < a) : s ≤ (s + a - 1) / a * a := by
  have h1 : (s + a - 1) / a * a + (s + a - 1) % a = s + a - 1 := by
    rw [Nat.mul_comm]; exact Nat.div_add_mod _ _
  have h2 : (s + a - 1) % a < a := Nat.mod_lt _ ha
  omega

theorem roundup_upper (s a : Nat) : (s + a - 1) / a * a ≤ s + a - 1 :=
  Nat.div_mul_le_self _ _

theorem roundup_dvd (s a : Nat) : a ∣ (s + a - 1) / a * a :=
  Dvd.intro_left _ rfl

theorem ptr_align_offset_lt (addr : Nat) {align : Nat} (h : 0 < align) :
    ptr_align_offset addr align < align :=
  Nat.mod_lt _ h

/-! ### Specification of `meta_offset_layout` -/

theorem from_size_align_some {size align : Nat} {l : Layout}
    (h : Layout.from_size_align size align = some l) :
    l = ⟨size, align⟩ ∧ isPow2 align = true ∧ size ≤ isizeMax - (align - 1) := by
  unfold Layout.from_size_align at h
  split at h
  · exact ⟨(Option.some.injEq _ _ ▸ h).symm, by assumption⟩
  · exact absurd h (by simp)

/-- Unfolding of `meta_offset_layout` with its two `Option.map`s exposed (pure unfolding). -/
theorem meta_offset_layout_def (ty : RustType) :
    meta_offset_layout ty =
      Option.map (fun p => (mdOf ty, p.1, p.2))
        (Option.map
          (fun lay =>
            (lay, dynMetadataLayout.size + dynMetadataLayout.padding_needed_for ty.layout.align))
          (Layout.from_size_align
            (dynMetadataLayout.size + dynMetadataLayout.padding_needed_for ty.layout.align +
              ty.layout.size)
            (max dynMetadataLayout.align ty.layout.align))) := rfl

/-- Everything the success of `meta_offset_layout` pins down: the metadata is the
value's, the value offset is the descriptor size plus the padding up to the
value's alignment, the combined size is `offset + value size` (no final
rounding), and the combined alignment is the stricter of the two. -/
theorem meta_offset_layout_spec {ty : RustType} {md : DynMetadata} {l : Layout} {off : Nat}
    (h : meta_offset_layout ty = some (md, l, off)) :
    md = mdOf ty ∧
    off = dynMetadataLayout.size + dynMetadataLayout.padding_needed_for ty.layout.align ∧
    l.size = off + ty.layout.size ∧
    l.align = max dynMetadataLayout.align ty.layout.align ∧
    isPow2 l.align = true := by
  rw [meta_offset_layout_def] at h
  cases hfs : Layout.from_size_align
      (dynMetadataLayout.size + dynMetadataLayout.padding_needed_for ty.layout.align +
        ty.layout.size)
      (max dynMetadataLayout.align ty.layout.align) with
  | none => rw [hfs] at h; simp at h
  | some lay =>
      rw [hfs] at h
      simp only [Option.map_some', Option.some.injEq, Prod.mk.injEq] at h
      obtain ⟨h1, h2, h3⟩ := h
      obtain ⟨hl, hpow, _⟩ := from_size_align_some hfs
      subst h2 h3 hl
      refine ⟨h1.symm, rfl, rfl, rfl, hpow⟩

theorem meta_offset_layout_size_pos {ty : RustType} {md : DynMetadata} {l : Layout} {off : Nat}
    (h : meta_offset_layout ty = some (md, l, off)) :
    dynMetadataLayout.size ≤ l.size ∧ dynMetadataLayout.size ≤ off := by
  obtain ⟨-, hoff, hsz, -, -⟩ := meta_offset_layout_spec h
  omega

/-! ### Equation lemmas for `Box.new` -/

theorem Box.new_eq_of_none {addr : Nat} {mem : Mem} {ty : RustType} {payload : Nat}
    (h : meta_offset_layout ty = none) :
    Box.new addr mem ty payload = .error (.layoutError, mem) := by
  unfold Box.new
  rw [h]

/-- With the layout computation pinned, `Box::new` is the capacity test followed
by the two raw writes. -/
theorem Box.new_eq {addr : Nat} {mem : Mem} {ty : RustType} {payload : Nat}
    {md : DynMetadata} {l : Layout} {off : Nat}
    (h : meta_offset_layout ty = some (md, l, off)) :
    Box.new addr mem ty payload =
      if mem.len < ptr_align_offset addr l.align + l.size then
        .error (.notEnoughMemory mem.len (ptr_align_offset addr l.align + l.size), mem)
      else
        .ok ⟨ptr_align_offset addr l.align,
          (mem.write (ptr_align_offset addr l.align)
              (fun i => Cell.metaByte md i) dynMetadataLayout.size).write
            (ptr_align_offset addr l.align + off)
            (fun i => Cell.valByte ty payload i) ty.layout.size⟩ := by
  have hsz : l.size ≠ 0 := by
    have := (meta_offset_layout_size_pos h).1
    simp only [dynMetadataLayout] at this
    omega
  unfold Box.new
  rw [h]
  simp only [hsz, if_false, gt_iff_lt]

theorem Box.new_capacity_fail {addr : Nat} {mem : Mem} {ty : RustType} {payload : Nat}
    {md : DynMetadata} {l : Layout} {off : Nat}
    (h : meta_offset_layout ty = some (md, l, off))
    (hcap : mem.len < ptr_align_offset addr l.align + l.size) :
    Box.new addr mem ty payload =
      .error (.notEnoughMemory mem.len (ptr_align_offset addr l.align + l.size), mem) := by
  rw [Box.new_eq h, if_pos hcap]

theorem Box.new_success {addr : Nat} {mem : Mem} {ty : RustType} {payload : Nat}
    {md : DynMetadata} {l : Layout} {off : Nat}
    (h : meta_offset_layout ty = some (md, l, off))
    (hcap : ptr_align_offset addr l.align + l.size ≤ mem.len) :
    Box.new addr mem ty payload =
      .ok ⟨ptr_align_offset addr l.align,
        (mem.write (ptr_align_offset addr l.align)
            (fun i => Cell.metaByte md i) dynMetadataLayout.size).write
          (ptr_align_offset addr l.align + off)
          (fun i => Cell.valByte ty payload i) ty.layout.size⟩ := by
  rw [Box.new_eq h, if_neg (by omega)]

theorem Box.new_isOk {addr : Nat} {mem : Mem} {ty : RustType} {payload : Nat}
    {md : DynMetadata} {l : Layout} {off : Nat}
    (h : meta_offset_layout ty = some (md, l, off))
    (hcap : ptr_align_offset addr l.align + l.size ≤ mem.len) :
    (Box.new addr mem ty payload).isOk = true := by
  rw [Box.new_success h hcap]
  rfl

/-- Inversion: a successful `Box::new` determines the box completely. -/
theorem Box.new_ok_inv {addr : Nat} {mem : Mem} {ty : RustType} {payload : Nat} {b : Box}
    (h : Box.new addr mem ty payload = .ok b) :
    ∃ md l off, meta_offset_layout ty = some (md, l, off) ∧
      b.align_offset = ptr_align_offset addr l.align ∧
      b.align_offset + l.size ≤ mem.len ∧
      b.mem = (mem.write b.align_offset
          (fun i => Cell.metaByte md i) dynMetadataLayout.size).write
        (b.align_offset + off) (fun i => Cell.valByte ty payload i) ty.layout.size := by
  cases hm : meta_offset_layout ty with
  | none => rw [Box.new_eq_of_none hm] at h; exact absurd h (by simp)
  | some p =>
      obtain ⟨md, l, off⟩ := p
      rw [Box.new_eq hm] at h
      split at h
      · exact absurd h (by simp)
      · rename_i hcap
        refine ⟨md, l, off, rfl, ?_⟩
        injection h with hb
        subst hb
        refine ⟨rfl, ?_, rfl⟩
        show ptr_align_offset addr l.align + l.size ≤ mem.len
        omega

/-! ### Memory lemmas -/

theorem Mem.len_write (m : Mem) (pos : Nat) (f : Nat → Cell) (n : Nat) :
    (m.write pos f n).len = m.len := rfl

theorem Mem.write_cells_in {m : Mem} {pos n i : Nat} {f : Nat → Cell}
    (h1 : pos ≤ i) (h2 : i < pos + n) :
    (m.write pos f n).cells i = f (i - pos) := by
  simp [Mem.write, h1, h2]

theorem Mem.write_cells_out {m : Mem} {pos n i : Nat} {f : Nat → Cell}
    (h : i < pos ∨ pos + n ≤ i) :
    (m.write pos f n).cells i = m.cells i := by
  have hn : ¬(pos ≤ i ∧ i < pos + n) := by omega
  simp [Mem.write, hn]

theorem readMeta_of_cells {m : Mem} {pos : Nat} {md : DynMetadata}
    (h : ∀ i < dynMetadataLayout.size, m.cells (pos + i) = Cell.metaByte md i) :
    readMeta m pos = some md := by
  have h0 : m.cells pos = Cell.metaByte md 0 := by
    have := h 0 (by norm_num [dynMetadataLayout])
    rwa [Nat.add_zero] at this
  unfold readMeta
  rw [h0]
  exact if_pos h

theorem bytesAt_of_cells {m : Mem} {pos n : Nat} {g : Nat → Cell}
    (h : ∀ i < n, m.cells (pos + i) = g i) :
    m.bytesAt pos n = (List.range n).map g := by
  unfold Mem.bytesAt
  refine List.map_congr_left ?_
  intro i hi
  exact h i (List.mem_range.mp hi)

/-! ### The state of a freshly constructed box -/

theorem meta_offset_layout_extend {ty : RustType} {md : DynMetadata} {l : Layout} {off : Nat}
    (h : meta_offset_layout ty = some (md, l, off)) :
    dynMetadataLayout.extend ty.layout = some (l, off) := by
  unfold meta_offset_layout at h
  cases he : dynMetadataLayout.extend ty.layout with
  | none => rw [he] at h; simp at h
  | some p =>
      obtain ⟨a, c⟩ := p
      rw [he] at h
      simp only [Option.map_some', Option.some.injEq, Prod.mk.injEq] at h
      obtain ⟨-, h2, h3⟩ := h
      rw [h2, h3]

/-- The two raw writes of `Box::new` leave the metadata record readable at
`align_offset` and the value bytes at `align_offset + off`. -/
theorem constructed_cells {mem : Mem} {ao off : Nat} {md : DynMetadata}
    {ty : RustType} {payload : Nat} (hoff : dynMetadataLayout.size ≤ off) :
    (∀ i < dynMetadataLayout.size,
      ((mem.write ao (fun i => Cell.metaByte md i) dynMetadataLayout.size).write
          (ao + off) (fun i => Cell.valByte ty payload i) ty.layout.size).cells (ao + i) =
        Cell.metaByte md i) ∧
    (∀ i < ty.layout.size,
      ((mem.write ao (fun i => Cell.metaByte md i) dynMetadataLayout.size).write
          (ao + off) (fun i => Cell.valByte ty payload i) ty.layout.size).cells (ao + off + i) =
        Cell.valByte ty payload i) := by
  constructor
  · intro i hi
    rw [Mem.write_cells_out (Or.inl (by omega)),
      Mem.write_cells_in (by omega) (by omega)]
    congr 1
    omega
  · intro i hi
    rw [Mem.write_cells_in (by omega) (by omega)]
    congr 1
    omega

/-- Full state of a successfully constructed box: the metadata reads back, the
layout re-derivation at access time agrees with construction, and the
reconstructed reference is the stored metadata paired with the value's bytes. -/
theorem Box.constructed_spec {addr : Nat} {mem : Mem} {ty : RustType} {payload : Nat} {b : Box}
    (h : Box.new addr mem ty payload = .ok b) :
    ∃ l off, meta_offset_layout ty = some (mdOf ty, l, off) ∧
      b.meta = some (mdOf ty) ∧
      b.layout_meta = some (l, off, mdOf ty) ∧
      b.value_ptr = some (b.align_offset + off, mdOf ty) ∧
      b.as_ref = some (mdOf ty, valueBytes ty payload) ∧
      b.as_mut = some (mdOf ty, valueBytes ty payload) ∧
      b.mem.len = mem.len ∧
      b.align_offset + l.size ≤ mem.len := by
  obtain ⟨md, l, off, hm, hao, hcap, hbmem⟩ := Box.new_ok_inv h
  obtain ⟨hmd, -, -, -, -⟩ := meta_offset_layout_spec hm
  subst hmd
  obtain ⟨-, hoff⟩ := meta_offset_layout_size_pos hm
  obtain ⟨hmeta, hval⟩ := @constructed_cells mem b.align_offset off (mdOf ty) ty payload hoff
  have hbmeta : b.meta = some (mdOf ty) := by
    unfold Box.meta
    rw [hbmem]
    exact readMeta_of_cells hmeta
  have hlm : b.layout_meta = some (l, off, mdOf ty) := by
    unfold Box.layout_meta
    rw [hbmeta]
    show (dynMetadataLayout.extend (mdOf ty).valueLayout).map _ = _
    have : (mdOf ty).valueLayout = ty.layout := rfl
    rw [this, meta_offset_layout_extend hm]
    rfl
  have hvp : b.value_ptr = some (b.align_offset + off, mdOf ty) := by
    unfold Box.value_ptr
    rw [hlm]
    rfl
  have hbytes : b.mem.bytesAt (b.align_offset + off) (mdOf ty).valueLayout.size =
      valueBytes ty payload := by
    show b.mem.bytesAt (b.align_offset + off) ty.layout.size = valueBytes ty payload
    rw [hbmem]
    exact bytesAt_of_cells hval
  have href : b.as_ref = some (mdOf ty, valueBytes ty payload) := by
    unfold Box.as_ref
    rw [hvp]
    simp only [Option.map_some', Option.some.injEq, Prod.mk.injEq]
    exact ⟨trivial, hbytes⟩
  refine ⟨l, off, hm, hbmeta, hlm, hvp, href, ?_, ?_, hcap⟩
  · unfold Box.as_mut
    rw [hvp]
    simp only [Option.map_some', Option.some.injEq, Prod.mk.injEq]
    exact ⟨trivial, hbytes⟩
  · rw [hbmem]
    rfl

/-! ### Further operations referenced by the claims -/

/-- An in-place update of the stored value's bytes through the reconstructed
`&mut T` (what a trait method taking `&mut self` may do): it can write only the
value region, and only when the reference reconstruction succeeds.  This is the
only state-changing operation a live container admits; `as_ref`, `as_mut`,
`deref` and `drop_events` are pure functions of the state. -/
def Box.mutate_value (b : Box) (f : Nat → Cell) : Box :=
  match b.layout_meta with
  | some (_, off, md) =>
      ⟨b.align_offset, b.mem.write (b.align_offset + off) f md.valueLayout.size⟩
  | none => b

/-- The panic a `Box::new` call raised, if any. -/
def panicKindOf : Except (PanicKind × Mem) Box → Option PanicKind
  | .error (k, _) => some k
  | .ok _ => none

/-! ### Concrete instances used by witnesses and counterexamples -/

/-- Type `u64` viewed as a trait object (vtable 1): layout (8, 8), as in the crate's
`42_u64` under `dyn Display` examples. -/
def tyU64 : RustType := ⟨⟨8, 8⟩, 1⟩

/-- Type `i32` viewed as a trait object (vtable 2): layout (4, 4), as in the source
test `test_box_insufficient_memory` (`Box::<dyn Display>::new(&mut [0; 2], 4)`). -/
def tyI32 : RustType := ⟨⟨4, 4⟩, 2⟩

/-- Type `u8` viewed as a trait object (vtable 3): layout (1, 1). -/
def tyU8 : RustType := ⟨⟨1, 1⟩, 3⟩

/-- A zero-sized type viewed as a trait object (vtable 7): layout (0, 1). -/
def tyZst : RustType := ⟨⟨0, 1⟩, 7⟩

/-- An all-zeroes byte source. -/
def zeroFn : Nat → Cell := fun _ => Cell.init 0

/-- The box `Box::new(&mut [0; 32], 42_u64)` produces (aligned start address):
metadata at offset 0, value bytes at offset 8. -/
def boxW : Box :=
  ⟨0, ((zero_buf 32).write 0 (fun i => Cell.metaByte (mdOf tyU64) i)
        dynMetadataLayout.size).write 8 (fun i => Cell.valByte tyU64 42 i)
      tyU64.layout.size⟩

theorem new_ok_boxW : Box.new 0 (zero_buf 32) tyU64 42 = .ok boxW := rfl

/-! ### The claims -/

/-- Claim C1: round-trip — whenever `Box::new` succeeds for a value, `as_ref`
reconstructs a reference whose observable content (the dispatch metadata
together with the value bytes it points at, which determine its behaviour under
every trait operation) is exactly that of the stored value, and `Deref` agrees
with `as_ref`. -/
theorem c1_round_trip {addr : Nat} {mem : Mem} {ty : RustType} {payload : Nat} {b : Box}
    (h : Box.new addr mem ty payload = .ok b) :
    b.as_ref = some (mdOf ty, valueBytes ty payload) ∧ b.deref = b.as_ref := by
  obtain ⟨l, off, hm, hbmeta, hlm, hvp, href, hmut, hlen, hcap⟩ := Box.constructed_spec h
  exact ⟨href, rfl⟩

/-- Witness for C1: the box built from the `u64`-like value 42 in a zeroed
32-byte buffer reads back as that value. -/
theorem c1_round_trip_witness :
    boxW.as_ref = some (mdOf tyU64, valueBytes tyU64 42) ∧ boxW.deref = boxW.as_ref :=
  c1_round_trip new_ok_boxW

/-- Claim C2: capacity rejection with atomicity — whenever the required total
length (alignment offset plus combined layout size) exceeds the buffer's
length, `Box::new` aborts with the buffer completely untouched (the error
carries the input buffer unchanged, no byte having been written), and the panic
message reports the available and required byte counts in the documented form. -/
theorem c2_capacity_rejection {addr : Nat} {mem : Mem} {ty : RustType} {payload : Nat}
    {md : DynMetadata} {l : Layout} {off : Nat}
    (h : meta_offset_layout ty = some (md, l, off))
    (hcap : mem.len < ptr_align_offset addr l.align + l.size) :
    Box.new addr mem ty payload =
      .error (.notEnoughMemory mem.len (ptr_align_offset addr l.align + l.size), mem) ∧
    panicMessage (.notEnoughMemory mem.len (ptr_align_offset addr l.align + l.size)) =
      "Not enough memory to store the specified value (got: " ++ toString mem.len ++
        ", needed: " ++ toString (ptr_align_offset addr l.align + l.size) ++ ")" :=
  ⟨Box.new_capacity_fail h hcap, rfl⟩

/-- Witness for C2, mirroring the source test `test_box_insufficient_memory`:
a 2-byte buffer cannot hold an `i32`-like value (12 bytes needed). -/
theorem c2_capacity_rejection_witness :
    Box.new 0 (zero_buf 2) tyI32 4 = .error (.notEnoughMemory 2 12, zero_buf 2) ∧
    panicMessage (.notEnoughMemory 2 12) =
      "Not enough memory to store the specified value (got: 2, needed: 12)" :=
  @c2_capacity_rejection 0 (zero_buf 2) tyI32 4 (mdOf tyI32) ⟨12, 8⟩ 8
    (by decide) (by decide)

/-- Claim C3, counterexample: for a 1-byte value (layout (1,1)) the combined
layout is size 9, alignment 8 — the final size is NOT rounded up to the
combined alignment (`Layout::extend` is never followed by `pad_to_align`), so
consecutive containers do not compose as the claim states. -/
theorem c3_layout_not_rounded_counterexample :
    layout_of_dyn tyU8 = some ⟨9, 8⟩ ∧ ¬(8 ∣ 9) :=
  ⟨by decide, by decide⟩

/-- Claim C3 (amended): the combined layout is the descriptor's layout extended
by the concrete value's layout at the stricter of the two alignments, and the
value offset is the least multiple of the value's alignment past the
descriptor — but the final size is exactly `value_offset + value_size`,
NOT rounded up to the combined alignment. -/
theorem c3_layout_composition_amended {ty : RustType} {md : DynMetadata} {l : Layout}
    {off : Nat} (hpow : isPow2 ty.layout.align = true)
    (h : meta_offset_layout ty = some (md, l, off)) :
    md = mdOf ty ∧
    l.align = max dynMetadataLayout.align ty.layout.align ∧
    dynMetadataLayout.size ≤ off ∧
    ty.layout.align ∣ off ∧
    off < dynMetadataLayout.size + ty.layout.align ∧
    l.size = off + ty.layout.size := by
  obtain ⟨hmd, hoff, hsz, hal, -⟩ := meta_offset_layout_spec h
  have ha : 0 < ty.layout.align := isPow2_pos hpow
  have h1 := roundup_lower dynMetadataLayout.size ty.layout.align ha
  have h2 := roundup_upper dynMetadataLayout.size ty.layout.align
  have h3 := roundup_dvd dynMetadataLayout.size ty.layout.align
  have hoff2 : off =
      (dynMetadataLayout.size + ty.layout.align - 1) / ty.layout.align * ty.layout.align := by
    rw [hoff]
    unfold Layout.padding_needed_for
    omega
  refine ⟨hmd, hal, by omega, ?_, by omega, hsz⟩
  rw [hoff2]
  exact h3

/-- Witness for the amended C3 at the 1-byte value: offset 8, combined size 9,
combined alignment 8. -/
theorem c3_layout_composition_amended_witness :
    mdOf tyU8 = mdOf tyU8 ∧
    (Layout.mk 9 8).align = max dynMetadataLayout.align tyU8.layout.align ∧
    dynMetadataLayout.size ≤ 8 ∧
    tyU8.layout.align ∣ 8 ∧
    8 < dynMetadataLayout.size + tyU8.layout.align ∧
    (Layout.mk 9 8).size = 8 + tyU8.layout.size :=
  @c3_layout_composition_amended tyU8 (mdOf tyU8) ⟨9, 8⟩ 8 (by decide) (by decide)

/-- Claim C4, counterexample: a zero-size concrete value is NOT rejected —
`Box::new` accepts the ZST (layout (0,1)) on a 32-byte buffer. -/
theorem c4_zero_size_accepted_counterexample :
    tyZst.layout.size = 0 ∧ (Box.new 0 (zero_buf 32) tyZst 0).isOk = true :=
  ⟨rfl, by decide⟩

/-- Claim C4 (amended): the assertion rejects a zero-size COMBINED layout
(descriptor plus value), not a zero-size value; since the combined layout
always contains the 8-byte descriptor, every zero-size concrete value passes
the assertion and is stored whenever the buffer has capacity — it is the stored
record (descriptor included), not the value, that occupies at least one byte. -/
theorem c4_zero_size_amended {ty : RustType} {md : DynMetadata} {l : Layout} {off : Nat}
    (_hz : ty.layout.size = 0)
    (h : meta_offset_layout ty = some (md, l, off)) :
    dynMetadataLayout.size ≤ l.size ∧
    ∀ addr payload n, ptr_align_offset addr l.align + l.size ≤ n →
      (Box.new addr (zero_buf n) ty payload).isOk = true := by
  refine ⟨(meta_offset_layout_size_pos h).1, ?_⟩
  intro addr payload n hcap
  exact Box.new_isOk h hcap

/-- Witness for the amended C4: the ZST is accepted at an unaligned start
address in a 16-byte buffer. -/
theorem c4_zero_size_amended_witness :
    dynMetadataLayout.size ≤ (Layout.mk 8 8).size ∧
    (Box.new 2 (zero_buf 16) tyZst 9).isOk = true := by
  obtain ⟨h1, h2⟩ := @c4_zero_size_amended tyZst (mdOf tyZst) ⟨8, 8⟩ 8 rfl (by decide)
  exact ⟨h1, h2 2 9 16 (by decide)⟩

/-- Claim C5: single destruction — for every successful construction, the whole
lifecycle (destructor activity through the container during `Box::new` itself,
followed by the container's `Drop`) invokes the contained value's destructor
through the stored descriptor exactly once: the event list is the one-element
list carrying the value's metadata and bytes — never empty, never longer. -/
theorem c5_single_destruction {addr : Nat} {mem : Mem} {ty : RustType} {payload : Nat}
    {b : Box} (h : Box.new addr mem ty payload = .ok b) :
    Box.new_unwind_events addr mem ty ++ b.drop_events =
      [(mdOf ty, valueBytes ty payload)] := by
  obtain ⟨l, off, hm, hbmeta, hlm, hvp, href, hmut, hlen, hcap⟩ := Box.constructed_spec h
  have hdrop : b.drop_events = [(mdOf ty, valueBytes ty payload)] := by
    unfold Box.drop_events
    rw [hmut]
  have hnew : Box.new_unwind_events addr mem ty = [] := by
    unfold Box.new_unwind_events
    rw [hm]
    simp
  rw [hnew, hdrop]
  rfl

/-- Witness for C5: the lifecycle of the box built from the `u64`-like value 42
fires exactly one destructor event, for that value. -/
theorem c5_single_destruction_witness :
    Box.new_unwind_events 0 (zero_buf 32) tyU64 ++ boxW.drop_events =
      [(mdOf tyU64, valueBytes tyU64 42)] :=
  c5_single_destruction new_ok_boxW

/-- Claim C6: destructor suppression on failure — on the insufficient-capacity
path `Box::new` errors with the buffer untouched, and, because the source calls
`core::mem::forget(new_box)` before panicking, no destructor runs through the
partially built container during the unwind (its `Drop`, which would have read
the never-written buffer, is suppressed): the unwind's container-mediated drop
event list is empty. -/
theorem c6_destructor_suppression {addr : Nat} {mem : Mem} {ty : RustType} {payload : Nat}
    {md : DynMetadata} {l : Layout} {off : Nat}
    (h : meta_offset_layout ty = some (md, l, off))
    (hcap : mem.len < ptr_align_offset addr l.align + l.size) :
    Box.new addr mem ty payload =
      .error (.notEnoughMemory mem.len (ptr_align_offset addr l.align + l.size), mem) ∧
    Box.new_unwind_events addr mem ty = [] := by
  refine ⟨Box.new_capacity_fail h hcap, ?_⟩
  unfold Box.new_unwind_events
  rw [h]
  simp

/-- Witness for C6: the failing construction of the `i32`-like value at an
unaligned start address errors without any drop event. -/
theorem c6_destructor_suppression_witness :
    Box.new 3 (zero_buf 2) tyI32 4 = .error (.notEnoughMemory 2 17, zero_buf 2) ∧
    Box.new_unwind_events 3 (zero_buf 2) tyI32 = [] :=
  @c6_destructor_suppression 3 (zero_buf 2) tyI32 4 (mdOf tyI32) ⟨12, 8⟩ 8
    (by decide) (by decide)

/-- Claim C7: capacity invariant — after every successful construction,
`align_offset + combined_layout.size ≤ buffer.len` holds; construction does not
change the buffer's length, and mutating the stored value in place through the
reconstructed mutable reference (the only state-changing operation on a live
container — access and drop are pure functions of the state) changes neither
`align_offset` nor the buffer length, so the inequality holds for the
container's entire life. -/
theorem c7_capacity_invariant {addr : Nat} {mem : Mem} {ty : RustType} {payload : Nat}
    {b : Box} {md : DynMetadata} {l : Layout} {off : Nat}
    (h : Box.new addr mem ty payload = .ok b)
    (hm : meta_offset_layout ty = some (md, l, off)) :
    b.align_offset + l.size ≤ b.mem.len ∧
    b.mem.len = mem.len ∧
    ∀ f, (b.mutate_value f).align_offset = b.align_offset ∧
      (b.mutate_value f).mem.len = b.mem.len := by
  obtain ⟨l', off', hm', hbmeta, hlm, hvp, href, hmut, hlen, hcap⟩ := Box.constructed_spec h
  rw [hm] at hm'
  simp only [Option.some.injEq, Prod.mk.injEq] at hm'
  obtain ⟨-, hl, hoff⟩ := hm'
  subst hl hoff
  refine ⟨by omega, hlen, ?_⟩
  intro f
  unfold Box.mutate_value
  rw [hlm]
  exact ⟨rfl, rfl⟩

/-- Witness for C7 at the box built from the `u64`-like value 42: offset 0 plus
combined size 16 fits in the 32-byte buffer, and in-place mutation preserves
offset and length. -/
theorem c7_capacity_invariant_witness :
    boxW.align_offset + (Layout.mk 16 8).size ≤ boxW.mem.len ∧
    boxW.mem.len = (zero_buf 32).len ∧
    (boxW.mutate_value zeroFn).align_offset = boxW.align_offset ∧
    (boxW.mutate_value zeroFn).mem.len = boxW.mem.len := by
  obtain ⟨h1, h2, h3⟩ :=
    @c7_capacity_invariant 0 (zero_buf 32) tyU64 42 boxW (mdOf tyU64) ⟨16, 8⟩ 8
      new_ok_boxW (by decide)
  exact ⟨h1, h2, (h3 zeroFn).1, (h3 zeroFn).2⟩

/-- Claim C8: pre-sizing sufficiency — for every value whose combined layout is
computable, a buffer of length at least `layout.size + layout.align - 1` is
always sufficient, whatever the buffer's start address: `Box::new` succeeds,
and in particular never takes the insufficient-capacity panic path. -/
theorem c8_pre_sizing {addr : Nat} {ty : RustType} {payload : Nat}
    {md : DynMetadata} {l : Layout} {off : Nat} {mem : Mem}
    (h : meta_offset_layout ty = some (md, l, off))
    (hlen : l.size + l.align - 1 ≤ mem.len) :
    (Box.new addr mem ty payload).isOk = true := by
  have hpow : isPow2 l.align = true := (meta_offset_layout_spec h).2.2.2.2
  have ha : 0 < l.align := isPow2_pos hpow
  have hao : ptr_align_offset addr l.align < l.align := ptr_align_offset_lt addr ha
  exact Box.new_isOk h (by omega)

/-- Witness for C8: the `u64`-like value (combined layout size 16, align 8) in
a 23-byte buffer starting at the unaligned address 5 still fits. -/
theorem c8_pre_sizing_witness :
    (Box.new 5 (zero_buf 23) tyU64 7).isOk = true :=
  @c8_pre_sizing 5 tyU64 7 (mdOf tyU64) ⟨16, 8⟩ 8 (zero_buf 23) (by decide) (by decide)

/-- Claim C9 (spec-modelled: `construct_fixed` is absent from `src/`; it is
modelled from spec §4.5 and §6): the fixed-size convenience constructor owns an
inline zero-initialized buffer of compile-time length `n` and otherwise behaves
exactly like construction into a borrowed buffer — it IS `Box.new` on that
buffer, so layout computation, validation, writes, access and destruction all
coincide. -/
theorem c9_construct_fixed (n addr : Nat) (ty : RustType) (payload : Nat) :
    construct_fixed n addr ty payload = Box.new addr (zero_buf n) ty payload ∧
    (zero_buf n).len = n ∧
    (∀ i, (zero_buf n).cells i = Cell.init 0) :=
  ⟨rfl, rfl, fun _ => rfl⟩

/-- Claim C10: the zero-size assertion branch is unreachable — every layout
`meta_offset_layout` returns has positive size (it contains the 8-byte
descriptor), `Box::new` never fails with the `unsupportedLayout` assertion for
any buffer, address or payload, and on a zero-length buffer it always fails the
capacity check instead. -/
theorem c10_assert_unreachable {ty : RustType} {md : DynMetadata} {l : Layout} {off : Nat}
    (h : meta_offset_layout ty = some (md, l, off)) :
    0 < l.size ∧
    (∀ addr mem payload, panicKindOf (Box.new addr mem ty payload) ≠
      some PanicKind.unsupportedLayout) ∧
    (∀ addr payload cells0, panicKindOf (Box.new addr ⟨0, cells0⟩ ty payload) =
      some (PanicKind.notEnoughMemory 0 (ptr_align_offset addr l.align + l.size))) := by
  have hsz : dynMetadataLayout.size ≤ l.size := (meta_offset_layout_size_pos h).1
  have hsz8 : (8 : Nat) ≤ l.size := by simpa [dynMetadataLayout] using hsz
  refine ⟨by omega, ?_, ?_⟩
  · intro addr mem payload
    rw [Box.new_eq h]
    split
    · simp [panicKindOf]
    · simp [panicKindOf]
  · intro addr payload cells0
    have hlen : (Mem.mk 0 cells0).len < ptr_align_offset addr l.align + l.size := by
      show 0 < ptr_align_offset addr l.align + l.size
      omega
    rw [Box.new_capacity_fail h hlen]
    rfl

/-- Witness for C10 at the zero-sized type: its combined layout has size 8; on
a 32-byte buffer construction does not hit the assertion, and on an empty
buffer it fails the capacity check. -/
theorem c10_assert_unreachable_witness :
    0 < (Layout.mk 8 8).size ∧
    panicKindOf (Box.new 0 (zero_buf 32) tyZst 0) ≠ some PanicKind.unsupportedLayout ∧
    panicKindOf (Box.new 1 ⟨0, zeroFn⟩ tyZst 0) =
      some (PanicKind.notEnoughMemory 0 (ptr_align_offset 1 (Layout.mk 8 8).align +
        (Layout.mk 8 8).size)) := by
  obtain ⟨h1, h2, h3⟩ := @c10_assert_unreachable tyZst (mdOf tyZst) ⟨8, 8⟩ 8 (by decide)
  exact ⟨h1, h2 0 (zero_buf 32) 0, h3 1 0 zeroFn⟩

end StaticBox
